import Mathlib

/-!
# Verification of the aderyn static-analysis core

A shallow embedding of the aderyn detector engine and the detectors whose
behavior the specification describes: the capture/instance-map contract, the
PUSH0-opcode detector, the reverts/requires-in-loops detector, the
zero-address-check detector, the blame-coverage harness, the ancestors
relationship query, and the name-keyed detector registry.

Pure parts are translated directly from the Rust source
(`aderyn_core/src/detect/...`, `aderyn_core/src/context/browser/...`,
`aderyn_core/src/report/sarif_printer.rs`). Parts of the repository that are
not among the provided source files (the `capture!` macro, the
`WorkspaceContext` registry, the extraction queries and the closest-ancestor
query) are modelled from the specification and carry a doc comment saying so.
-/

set_option autoImplicit false

namespace Aderyn

/-- Severity tiers of an issue, from `detect::detector::IssueSeverity`. -/
inductive IssueSeverity where
  | NC
  | Low
  | Medium
  | High
  | Critical
  deriving DecidableEq, Repr

/-- A detector instance key: source file name, line number, character
location of the node (`(String, usize, String)` in the Rust source). -/
abbrev InstanceKey := String × Nat × String

/-- A node identity (`NodeID = i64` in the Rust source). -/
abbrev NodeID := Int

/-- A detector's instance mapping, `BTreeMap<(String, usize, String), NodeID>`
modelled as an association list with unique keys. Ordering of entries is not
relevant to any claim; key uniqueness is. -/
abbrev InstanceMap := List (InstanceKey × NodeID)

/-- Modelled from the spec: the `capture!` operation builds the instance key
from the node's resolved location and inserts it into the detector's own
instance mapping, "overwriting on key collision (idempotent capture)". This is
`BTreeMap::insert`: replace the value at an existing key, otherwise add the
new entry. -/
def insertInstance (m : InstanceMap) (k : InstanceKey) (v : NodeID) : InstanceMap :=
  if m.any (fun e => e.1 = k) then
    m.map (fun e => if e.1 = k then (k, v) else e)
  else
    m ++ [(k, v)]

/-- The keys of an instance mapping. -/
def instanceKeys (m : InstanceMap) : List InstanceKey :=
  m.map Prod.fst

/-- How many entries of the mapping carry key `k`. -/
def countKey (m : InstanceMap) (k : InstanceKey) : Nat :=
  (m.filter (fun e => e.1 = k)).length

/-- The mapping invariant of a `BTreeMap`: no key occurs twice. -/
def uniqueKeys (m : InstanceMap) : Prop :=
  (instanceKeys m).Nodup

/-! ## Node kinds and the reverts/requires-in-loops detector -/

/-- The node kinds the embedded detectors inspect, from `ast::NodeType`. -/
inductive NodeType where
  | ForStatement
  | WhileStatement
  | FunctionDefinition
  | SourceUnit
  | OtherNode
  deriving DecidableEq, Repr

/-- Modelled from the spec: `ClosestAncestorOfKind(node, kind)` is "a linear
walk up the ancestor chain, returns the first node whose kind matches; `None`
if the chain is exhausted without a match". Here the ancestor chain is given
by its list of node kinds, immediate parent first. -/
def closestAncestorOfType (ancestorTypes : List NodeType) (t : NodeType) : Option NodeType :=
  ancestorTypes.find? (fun a => a = t)

/-- An `Identifier` node as the loop detector consumes it: its `name`, the
node kinds of its ancestor chain (the spec's ancestor machinery), and the
location key plus node identity which `capture!` would derive for it. -/
structure Identifier where
  name : String
  ancestorTypes : List NodeType
  key : InstanceKey
  nodeId : NodeID

/-- The loop body of `RevertsAndRequiresInLoopsDetector::detect` for one
`revert`/`require` identifier: capture it when it has a for-statement
ancestor, and capture it when it has a while-statement ancestor. -/
def revertsCaptureStep (m : InstanceMap) (item : Identifier) : InstanceMap :=
  let m :=
    if (closestAncestorOfType item.ancestorTypes .ForStatement).isSome then
      insertInstance m item.key item.nodeId
    else m
  if (closestAncestorOfType item.ancestorTypes .WhileStatement).isSome then
    insertInstance m item.key item.nodeId
  else m

/-- `RevertsAndRequiresInLoopsDetector::detect`, translated from
`detect/low/reverts_and_requries_in_loops.rs`: filter the context's
identifiers to those named `revert` or `require`; run the capture loop over
them; return whether the instance mapping is non-empty. -/
def revertsAndRequiresInLoopsDetect (identifiers : List Identifier) : Bool × InstanceMap :=
  let requiresAndReverts :=
    identifiers.filter (fun id => id.name = "revert" || id.name = "require")
  let m := requiresAndReverts.foldl revertsCaptureStep []
  (!m.isEmpty, m)

/-- Severity of the loop detector, from the source. -/
def revertsAndRequiresInLoopsSeverity : IssueSeverity := .Low

/-! ## The PUSH0-opcode detector and its semver model -/

/-- Character-level substring containment (Rust `str::contains` with a
literal pattern; the strings involved are ASCII). -/
def charsContain (pat : List Char) : List Char → Bool
  | [] => pat.isEmpty
  | c :: rest => pat.isPrefixOf (c :: rest) || charsContain pat rest

/-- Rust `str::split` with a one-character separator, on the character
level: `""` yields `[""]`, separators delimit possibly empty chunks. -/
def splitOnChar (sep : Char) : List Char → List (List Char)
  | [] => [[]]
  | c :: rest =>
    let r := splitOnChar sep rest
    if c = sep then [] :: r
    else
      match r with
      | [] => [[c]]
      | h :: t => (c :: h) :: t

/-- The numeric value of a decimal digit character. -/
def charDigit? (c : Char) : Option Nat :=
  if 48 ≤ c.toNat ∧ c.toNat ≤ 57 then some (c.toNat - 48) else none

/-- Accumulating decimal parse over digit characters. -/
def digitsToNatAux : List Char → Nat → Option Nat
  | [], acc => some acc
  | c :: rest, acc =>
    match charDigit? c with
    | none => none
    | some d => digitsToNatAux rest (acc * 10 + d)

/-- Rust `u64::from_str` on our ASCII chunks: one or more decimal digits
(version components are small, so overflow is not modelled). -/
def charsToNat? : List Char → Option Nat
  | [] => none
  | c :: rest => digitsToNatAux (c :: rest) 0

/-- Rust `str::ends_with` on our ASCII strings. -/
def stringEndsWith (s suffix : String) : Bool :=
  List.isSuffixOf suffix.data s.data

/-- `s.contains(pat)` of Rust on our ASCII strings. -/
def containsSubstring (s pat : String) : Bool :=
  charsContain pat.data s.data

/-- Comparison operator of one semver comparator (`semver::Op`). -/
inductive SemverOp where
  | Exact
  | Greater
  | GreaterEq
  | Less
  | LessEq
  | Tilde
  | Caret
  deriving DecidableEq, Repr

/-- One comparator of a semver version requirement (`semver::Comparator`,
pre-release and build metadata omitted: the detector never inspects them). -/
structure Comparator where
  op : SemverOp
  major : Nat
  minor : Option Nat
  patch : Option Nat
  deriving DecidableEq, Repr

/-- A semver version requirement (`semver::VersionReq`). -/
structure VersionReq where
  comparators : List Comparator
  deriving DecidableEq, Repr

/-- Model of the external `semver` crate's comparator syntax: an optional
leading operator; a comparator with no operator defaults to caret. -/
def splitSemverOp : List Char → SemverOp × List Char
  | '>' :: '=' :: rest => (.GreaterEq, rest)
  | '<' :: '=' :: rest => (.LessEq, rest)
  | '>' :: rest => (.Greater, rest)
  | '<' :: rest => (.Less, rest)
  | '=' :: rest => (.Exact, rest)
  | '~' :: rest => (.Tilde, rest)
  | '^' :: rest => (.Caret, rest)
  | s => (.Caret, s)

/-- Model of the external `semver` crate: parse one comparator, restricted to
plain numeric `major[.minor[.patch]]` requirements (no wildcard, pre-release
or build metadata — the version strings the detector builds from pragma
directives are of this plain shape). -/
def parseComparator (s : List Char) : Option Comparator :=
  let (op, rest) := splitSemverOp s
  match splitOnChar '.' rest with
  | [a] =>
    match charsToNat? a with
    | some ma => some ⟨op, ma, none, none⟩
    | none => none
  | [a, b] =>
    match charsToNat? a, charsToNat? b with
    | some ma, some mb => some ⟨op, ma, some mb, none⟩
    | _, _ => none
  | [a, b, c] =>
    match charsToNat? a, charsToNat? b, charsToNat? c with
    | some ma, some mb, some mc => some ⟨op, ma, some mb, some mc⟩
    | _, _, _ => none
  | _ => none

/-- Model of the external `semver` crate's `VersionReq::parse`: a
comma-separated list of comparators. -/
def parseVersionReq (s : String) : Option VersionReq :=
  ((splitOnChar ',' s.data).mapM parseComparator).map VersionReq.mk

/-- Rust's `Option<u64>` ordering (`PartialOrd`): `None` is below every
`Some`, `Some`s compare by value. `optNatLe a b` is `a <= b`. -/
def optNatLe : Option Nat → Option Nat → Bool
  | none, _ => true
  | some _, none => false
  | some a, some b => a ≤ b

/-- `a >= b` on `Option<u64>`. -/
def optNatGe (a b : Option Nat) : Bool :=
  optNatLe b a

/-- `version_req_allows_above_0_8_19` translated from
`detect/low/push_0_opcode.rs`: simplified logic deciding whether a
requirement admits versions above 0.8.19. One comparator: tilde/caret accept
when major > 0 or minor >= 8; `>`/`>=` always accept; exact accepts only
0.8.20. Two comparators: decide from the second comparator alone. -/
def version_req_allows_above_0_8_19 (version_req : VersionReq) : Bool :=
  match version_req.comparators with
  | [comparator] =>
    match comparator.op with
    | .Tilde | .Caret =>
      decide (0 < comparator.major) || optNatGe comparator.minor (some 8)
    | .Greater | .GreaterEq => true
    | .Exact =>
      comparator.major == 0 && comparator.minor == some 8
        && comparator.patch == some 20
    | _ => false
  | [_, comparator_2] =>
    decide (0 < comparator_2.major) || optNatGe comparator_2.minor (some 8)
      || (comparator_2.minor == some 8 && optNatGe comparator_2.patch (some 20))
  | _ => false

/-- A `PragmaDirective` node as the PUSH0 detector consumes it: its literal
tokens, and the location key plus node identity `capture!` would derive. -/
structure PragmaDirective where
  literals : List String
  key : InstanceKey
  nodeId : NodeID

/-- The version-string assembly loop of `PushZeroOpcodeDetector::detect`:
skip the literal `solidity`; prepend `=` when the string is still empty and
the literal holds `0.`; insert `,` before a later `<` or `=` literal once the
string is longer than 5; append the literal. -/
def buildVersionString (literals : List String) : String :=
  literals.foldl
    (fun version_string literal =>
      if literal = "solidity" then version_string
      else
        let version_string :=
          if version_string.isEmpty && containsSubstring literal "0." then
            version_string.push '='
          else version_string
        let version_string :=
          if decide (5 < version_string.length) && (literal = "<" || literal = "=") then
            version_string.push ','
          else version_string
        version_string ++ literal)
    ""

/-- The pragma loop of `PushZeroOpcodeDetector::detect`. `none` models the
`?`-propagated parse error of a malformed version requirement, which aborts
this detector's run. -/
def pushZeroDetectLoop : List PragmaDirective → InstanceMap → Option InstanceMap
  | [], m => some m
  | pragma_directive :: rest, m =>
    match parseVersionReq (buildVersionString pragma_directive.literals) with
    | none => none
    | some req =>
      let m :=
        if version_req_allows_above_0_8_19 req then
          insertInstance m pragma_directive.key pragma_directive.nodeId
        else m
      pushZeroDetectLoop rest m

/-- `PushZeroOpcodeDetector::detect`, translated from
`detect/low/push_0_opcode.rs`: run the pragma loop on an initially empty
instance mapping and report whether the mapping ended non-empty
(`Ok(b)` is `some (b, mapping)`, `Err` is `none`). -/
def pushZeroOpcodeDetect (pragmas : List PragmaDirective) : Option (Bool × InstanceMap) :=
  (pushZeroDetectLoop pragmas []).map (fun m => (!m.isEmpty, m))

/-- Severity of the PUSH0 detector, from the source. -/
def pushZeroOpcodeSeverity : IssueSeverity := .Low

/-! ## The zero-address-check detector -/

/-- Mutability of a variable declaration, from `ast::Mutability`. -/
inductive Mutability where
  | Mutable
  | Immutable
  | Constant
  deriving DecidableEq, Repr

/-- A variable declaration with the fields the zero-address detector reads:
its identity, `constant`, `mutability`, `state_variable` and
`type_descriptions.type_string`. -/
structure VariableDeclaration where
  id : NodeID
  constant : Bool
  mutability : Option Mutability
  state_variable : Bool
  type_string : Option String

/-- An expression as the zero-address detector discriminates it: either an
`Identifier` carrying the identity of the declaration it references, or any
other expression kind, uniform here because the detector only ever extracts
the identifiers beneath it. -/
inductive Expression where
  | identifier (referencedDeclaration : NodeID)
  | otherExpr (children : List Expression)

mutual

/-- Modelled from the spec: `ExtractIdentifiers` accumulates the
`referenced_declaration` of every identifier node in the given subtree, in
pre-order (the root itself included when it is an identifier). -/
def extractIdentifiers : Expression → List NodeID
  | .identifier referencedDeclaration => [referencedDeclaration]
  | .otherExpr children => extractIdentifiersList children

/-- Pre-order identifier extraction over a list of sibling subtrees. -/
def extractIdentifiersList : List Expression → List NodeID
  | [] => []
  | e :: rest => extractIdentifiers e ++ extractIdentifiersList rest

end

/-- A binary operation with the fields the detector reads. -/
structure BinaryOperation where
  operator : String
  left_expression : Expression
  right_expression : Expression

/-- An `Assignment` node: both sides, and the location key plus node identity
`capture!` would derive for it. -/
structure Assignment where
  left_hand_side : Expression
  right_hand_side : Expression
  key : InstanceKey
  nodeId : NodeID

/-- A function parameter as the detector reads it (`x.id` only). -/
structure Parameter where
  id : NodeID

/-- A function definition as the zero-address detector consumes it. The
`binary_operations` and `assignments` fields stand for the results of the
spec's extraction queries (`ExtractBinaryOperations` / `ExtractAssignments`)
over the function's subtree, in source order. -/
structure FunctionDefinition where
  parameters : List Parameter
  binary_operations : List BinaryOperation
  assignments : List Assignment

/-- `HashSet::insert` on the set of checked declaration ids (membership is
all the detector observes, so a duplicate-free list models it). -/
def insertCheckId (s : List NodeID) (i : NodeID) : List NodeID :=
  if i ∈ s then s else s ++ [i]

/-- One side of a binary check: an identifier contributes its referenced
declaration directly, any other expression contributes every identifier
extracted beneath it. -/
def addSideCheckIds (s : List NodeID) : Expression → List NodeID
  | .identifier referenced => insertCheckId s referenced
  | e => (extractIdentifiers e).foldl insertCheckId s

/-- The `identifier_reference_declaration_ids_in_binary_checks` set of
`ZeroAddressCheckDetector::detect`: over every `==`/`!=` binary operation of
the function, both sides' identifier referenced declarations. -/
def binaryChecksIds (function_definition : FunctionDefinition) : List NodeID :=
  let binary_operations := function_definition.binary_operations.filter
    (fun x => x.operator = "==" || x.operator = "!=")
  binary_operations.foldl
    (fun s x => addSideCheckIds (addSideCheckIds s x.left_expression) x.right_expression)
    []

/-- The assignment filter of `ZeroAddressCheckDetector::detect`: keep an
assignment when its left-hand side references a mutable address-typed state
variable (directly, or through any extracted identifier). -/
def lhsIsMutableAddressStateVar (svIds : List NodeID) (x : Assignment) : Bool :=
  match x.left_hand_side with
  | .identifier left_identifier => svIds.contains left_identifier
  | lhs => (extractIdentifiers lhs).any (fun i => svIds.contains i)

/-- The capture condition on one right-hand-side identifier: its declaration
is in no `==`/`!=` binary check and it is one of the function's parameters. -/
def rhsTriggers (checkIds : List NodeID) (params : List Parameter) (r : NodeID) : Bool :=
  !checkIds.contains r && params.any (fun x => x.id == r)

/-- The capture loop body of `ZeroAddressCheckDetector::detect` for one
assignment: a right-hand side that is itself an identifier is tested
directly; otherwise every extracted right-hand-side identifier is tested and
each unchecked parameter-sourced one captures the assignment (dedup makes
that a single instance). -/
def captureAssignmentStep (checkIds : List NodeID) (params : List Parameter)
    (m : InstanceMap) (assignment : Assignment) : InstanceMap :=
  match assignment.right_hand_side with
  | .identifier right_identifier =>
    if rhsTriggers checkIds params right_identifier then
      insertInstance m assignment.key assignment.nodeId
    else m
  | rhs =>
    (extractIdentifiers rhs).foldl
      (fun m r =>
        if rhsTriggers checkIds params r then
          insertInstance m assignment.key assignment.nodeId
        else m)
      m

/-- The workspace as the zero-address detector consumes it. -/
structure ZeroAddressContext where
  variable_declarations : List VariableDeclaration
  function_definitions : List FunctionDefinition

/-- The mutable-address-state-variable filter at the top of
`ZeroAddressCheckDetector::detect`: not constant, explicitly mutable, a state
variable, with `address` or `contract` in its type string. -/
def isMutableAddressStateVariable (var_decl : VariableDeclaration) : Bool :=
  !var_decl.constant
    && var_decl.mutability == some Mutability.Mutable
    && var_decl.state_variable
    && (containsSubstring (var_decl.type_string.getD "") "address"
        || containsSubstring (var_decl.type_string.getD "") "contract")

/-- The ids the detector stores in `mutable_address_state_variables` (only
key membership is ever read). -/
def mutableAddressStateVariableIds (context : ZeroAddressContext) : List NodeID :=
  (context.variable_declarations.filter isMutableAddressStateVariable).map (fun v => v.id)

/-- `ZeroAddressCheckDetector::detect`, translated from
`detect/nc/zero_address_check.rs`: per function, collect the `==`/`!=`
checked declaration ids, filter the assignments to those whose left-hand side
touches a mutable address state variable, and capture each such assignment
whose right-hand side has an unchecked parameter-sourced identifier. -/
def zeroAddressCheckDetect (context : ZeroAddressContext) : Bool × InstanceMap :=
  let svIds := mutableAddressStateVariableIds context
  let m := context.function_definitions.foldl
    (fun m function_definition =>
      let checkIds := binaryChecksIds function_definition
      let assignments := function_definition.assignments.filter
        (lhsIsMutableAddressStateVar svIds)
      assignments.foldl (captureAssignmentStep checkIds function_definition.parameters) m)
    []
  (!m.isEmpty, m)

/-- Severity of the zero-address detector, from the source. -/
def zeroAddressCheckSeverity : IssueSeverity := .NC

/-! ## The blame-coverage self-verification harness -/

/-- Position of the first occurrence of `pat` in `s` at or after offset `i`
(Rust `str::find`, character positions; the fixture text is ASCII). -/
def findSubFrom (pat : List Char) : List Char → Nat → Option Nat
  | s, i =>
    if pat.isPrefixOf s then some i
    else
      match s with
      | [] => none
      | _ :: rest => findSubFrom pat rest (i + 1)

/-- The `while end < line.len() && line.chars().nth(end) != Some(')')` scan of
`verify_blame_coverage`: the first position `>= e` holding `')'`, or the
line's length when there is none. -/
def scanCloseParen (s : List Char) (e : Nat) : Nat :=
  if h : e < s.length then
    if s.get ⟨e, h⟩ = ')' then e else scanCloseParen s (e + 1)
  else e
termination_by s.length - e

/-- The per-line marker scan of `verify_blame_coverage`: find
`@nyth:blame(`, scan forward for the closing `)`, and when it is closed split
the portion between on `,` into the named detectors. `none` when the line has
no closed marker. -/
def blameMarkerNames (line : String) : Option (List String) :=
  let look_for := "@nyth:blame("
  let cs := line.data
  match findSubFrom look_for.data cs 0 with
  | none => none
  | some start =>
    let e := scanCloseParen cs (start + 1)
    if e < cs.length then
      let portion := (cs.drop (start + look_for.length)).take (e - (start + look_for.length))
      some ((splitOnChar ',' portion).map String.mk)
    else none

/-- The expected-instance collection of `verify_blame_coverage`: for each
0-based line number `ln` whose line carries a closed marker naming this
detector, one `(file path, ln + 2)` pair per naming occurrence — line
`ln + 2` in 1-based numbering is the line after the marker. -/
def desiredInstances (filePath : String) (lines : List String) (selfName : String) :
    List (String × Nat) :=
  lines.enum.foldl
    (fun acc p =>
      match blameMarkerNames p.2 with
      | none => acc
      | some names =>
        acc ++ (names.filter (fun n => n = selfName)).map (fun _ => (filePath, p.1 + 2)))
    []

/-- One desired pair is covered when some instance key matches it: the
desired file path ends with the instance's file name and the line numbers are
equal. -/
def coversDesired (instances : InstanceMap) (d : String × Nat) : Bool :=
  instances.any (fun fi => stringEndsWith d.1 fi.1.1 && d.2 == fi.1.2.1)

/-- `IssueDetector::verify_blame_coverage` translated from
`detect/detector.rs`, with the fixture file's text given as its list of
lines: collect the desired pairs, keep those no instance covers, and return
whether none remain. -/
def verifyBlameCoverage (instances : InstanceMap) (filePath : String)
    (lines : List String) (selfName : String) : Bool :=
  let desired := desiredInstances filePath lines selfName
  let unblamed := desired.filter (fun d => !(coversDesired instances d))
  unblamed.length == 0

/-! ## The registry and the ancestors query -/

/-- The workspace registry as the ancestors machinery reads it: the derived
child-to-parent identity index (no entry for a source-unit root). -/
structure Registry where
  parentIndex : List (NodeID × NodeID)

/-- `parent_of(identity)`: the registry's O(1) parent lookup; absent for
roots and unknown identities. -/
def Registry.parent_of (r : Registry) (i : NodeID) : Option NodeID :=
  r.parentIndex.lookup i

/-- An identity the registry knows: one with a recorded parent. -/
def Registry.knownIdentity (r : Registry) (i : NodeID) : Bool :=
  (r.parentIndex.map Prod.fst).contains i

/-- Modelled from the spec: `get_ancestors` produces "the ordered sequence of
ancestors from immediate parent to the owning source unit, by repeated
`parent_of` calls; empty if the node's identity is unknown to the Registry".
The walk is bounded by the finite parent index (the node graph is acyclic of
finite depth), here by fuel covering every possible chain length. -/
def getAncestorsAux (r : Registry) : Nat → NodeID → List NodeID
  | 0, _ => []
  | fuel + 1, i =>
    match r.parent_of i with
    | none => []
    | some p => p :: getAncestorsAux r fuel p

/-- `WorkspaceContext::get_ancestors`, modelled from the spec (see
`getAncestorsAux`). -/
def Registry.get_ancestors (r : Registry) (i : NodeID) : List NodeID :=
  getAncestorsAux r r.parentIndex.length i

/-- The outcome of `accept_id` on a node: the double-dispatch identity hook
may fail (`Err`), succeed without an identity (`Ok` with no id received), or
yield the node's identity. -/
abbrev AcceptIdResult := Except Unit (Option NodeID)

/-- `GetAncestors::ancestors` translated from `context/browser/ancestors.rs`:
run `accept_id` into a `NodeIDReceiver`; `.ok()?` turns a failure into
`None`, `?` on the received id turns a missing identity into `None`; with an
identity in hand the result is `Some(context.get_ancestors(id))`. -/
def ancestors (r : Registry) (idResult : AcceptIdResult) : Option (List NodeID) :=
  match idResult with
  | .error _ => none
  | .ok none => none
  | .ok (some current_node_id) => some (r.get_ancestors current_node_id)

/-! ## The name-keyed detector registry -/

/-- `IssueDetectorNamePool`, from `detect/detector.rs`. -/
inductive IssueDetectorNamePool where
  | DelegateCallInLoop
  | CentralizationRisk
  | SolmateSafeTransferLib
  | AvoidAbiEncodePacked
  | Ecrecover
  | DeprecatedOzFunctions
  | UnsafeERC20Functions
  | UnspecificSolidityPragma
  | ZeroAddressCheck
  | UselessPublicFunction
  | ConstantsInsteadOfLiterals
  | UnindexedEvents
  | RequireWithString
  | NonReentrantBeforeOthers
  | BlockTimestampDeadline
  | UnsafeOzERC721Mint
  | PushZeroOpcode
  | ArbitraryTransferFrom
  | Undecided
  deriving DecidableEq, Repr

/-- The name table of the strum `EnumString` kebab-case derivation on
`IssueDetectorNamePool`: each variant answers to exactly its kebab-case
rendering. -/
def detectorNameTable : List (String × IssueDetectorNamePool) :=
  [("delegate-call-in-loop", .DelegateCallInLoop),
   ("centralization-risk", .CentralizationRisk),
   ("solmate-safe-transfer-lib", .SolmateSafeTransferLib),
   ("avoid-abi-encode-packed", .AvoidAbiEncodePacked),
   ("ecrecover", .Ecrecover),
   ("deprecated-oz-functions", .DeprecatedOzFunctions),
   ("unsafe-erc20-functions", .UnsafeERC20Functions),
   ("unspecific-solidity-pragma", .UnspecificSolidityPragma),
   ("zero-address-check", .ZeroAddressCheck),
   ("useless-public-function", .UselessPublicFunction),
   ("constants-instead-of-literals", .ConstantsInsteadOfLiterals),
   ("unindexed-events", .UnindexedEvents),
   ("require-with-string", .RequireWithString),
   ("non-reentrant-before-others", .NonReentrantBeforeOthers),
   ("block-timestamp-deadline", .BlockTimestampDeadline),
   ("unsafe-oz-erc721-mint", .UnsafeOzERC721Mint),
   ("push-zero-opcode", .PushZeroOpcode),
   ("arbitrary-transfer-from", .ArbitraryTransferFrom),
   ("undecided", .Undecided)]

/-- The strum `EnumString` kebab-case parse of a detector name
(`IssueDetectorNamePool::from_str`): the variant whose kebab-case rendering
is the given string, failure for anything else. -/
def issueDetectorNamePoolFromStr (s : String) : Option IssueDetectorNamePool :=
  detectorNameTable.lookup s

/-- The concrete detector types `get_issue_detector_by_name` can construct. -/
inductive DetectorKind where
  | DelegateCallInLoopDetector
  | CentralizationRiskDetector
  | SolmateSafeTransferLibDetector
  | AvoidAbiEncodePackedDetector
  | EcrecoverDetector
  | DeprecatedOZFunctionsDetector
  | UnsafeERC20FunctionsDetector
  | UnspecificSolidityPragmaDetector
  | ZeroAddressCheckDetector
  | UselessPublicFunctionDetector
  | ConstantsInsteadOfLiteralsDetector
  | UnindexedEventsDetector
  | RequireWithStringDetector
  | NonReentrantBeforeOthersDetector
  | BlockTimestampDeadlineDetector
  | UnsafeERC721MintDetector
  | PushZeroOpcodeDetector
  | ArbitraryTransferFromDetector
  deriving DecidableEq, Repr

/-- `get_issue_detector_by_name` translated from `detect/detector.rs`. `none`
models a panic: either the `unwrap` on a failed name parse, or the explicit
panic on the `Undecided` placeholder variant. -/
def get_issue_detector_by_name (detector_name : String) : Option DetectorKind :=
  match issueDetectorNamePoolFromStr detector_name with
  | none => none
  | some pool =>
    match pool with
    | .DelegateCallInLoop => some .DelegateCallInLoopDetector
    | .CentralizationRisk => some .CentralizationRiskDetector
    | .SolmateSafeTransferLib => some .SolmateSafeTransferLibDetector
    | .AvoidAbiEncodePacked => some .AvoidAbiEncodePackedDetector
    | .Ecrecover => some .EcrecoverDetector
    | .DeprecatedOzFunctions => some .DeprecatedOZFunctionsDetector
    | .UnsafeERC20Functions => some .UnsafeERC20FunctionsDetector
    | .UnspecificSolidityPragma => some .UnspecificSolidityPragmaDetector
    | .ZeroAddressCheck => some .ZeroAddressCheckDetector
    | .UselessPublicFunction => some .UselessPublicFunctionDetector
    | .ConstantsInsteadOfLiterals => some .ConstantsInsteadOfLiteralsDetector
    | .UnindexedEvents => some .UnindexedEventsDetector
    | .RequireWithString => some .RequireWithStringDetector
    | .NonReentrantBeforeOthers => some .NonReentrantBeforeOthersDetector
    | .BlockTimestampDeadline => some .BlockTimestampDeadlineDetector
    | .UnsafeOzERC721Mint => some .UnsafeERC721MintDetector
    | .PushZeroOpcode => some .PushZeroOpcodeDetector
    | .ArbitraryTransferFrom => some .ArbitraryTransferFromDetector
    | .Undecided => none

/-- The 18 kebab-case names of recognized detectors (the pool without the
`Undecided` placeholder). -/
def recognizedDetectorNames : List String :=
  ["delegate-call-in-loop", "centralization-risk", "solmate-safe-transfer-lib",
   "avoid-abi-encode-packed", "ecrecover", "deprecated-oz-functions",
   "unsafe-erc20-functions", "unspecific-solidity-pragma", "zero-address-check",
   "useless-public-function", "constants-instead-of-literals", "unindexed-events",
   "require-with-string", "non-reentrant-before-others", "block-timestamp-deadline",
   "unsafe-oz-erc721-mint", "push-zero-opcode", "arbitrary-transfer-from"]

/-! ## The SARIF printer -/

/-- An issue as the SARIF printer reads it: the detector's name and
description, and its instances. -/
structure Issue where
  detector_name : String
  description : String
  instances : InstanceMap

/-- A SARIF result as `create_sarif_results` builds one (the fields the code
sets from the issue). -/
structure SarifResult where
  rule_id : String
  message_text : String

/-- The severity-bucketed report as the SARIF printer reads it. -/
structure Report where
  criticals : List Issue
  highs : List Issue
  mediums : List Issue
  lows : List Issue
  ncs : List Issue

/-- `create_sarif_results` translated from `report/sarif_printer.rs`: a
result is built and pushed into `sarif_results` for every high issue, but the
function's final expression is the empty vector literal, so the accumulated
vector is discarded. -/
def create_sarif_results (report : Report) : List SarifResult :=
  let sarif_results := report.highs.foldl
    (fun acc high => acc ++ [SarifResult.mk high.detector_name high.description])
    []
  let _ := sarif_results
  []

/-! ## Helper lemmas about the instance mapping -/

theorem insertInstance_of_any_eq_false {m : InstanceMap} {k : InstanceKey} (v : NodeID)
    (h : m.any (fun e => e.1 = k) = false) :
    insertInstance m k v = m ++ [(k, v)] := by
  simp only [insertInstance, h, Bool.false_eq_true, if_false]

theorem insertInstance_of_any_eq_true {m : InstanceMap} {k : InstanceKey} (v : NodeID)
    (h : m.any (fun e => e.1 = k) = true) :
    insertInstance m k v = m.map (fun e => if e.1 = k then (k, v) else e) := by
  simp only [insertInstance, h, if_true]

theorem instanceKeys_cons (e : InstanceKey × NodeID) (rest : InstanceMap) :
    instanceKeys (e :: rest) = e.1 :: instanceKeys rest := rfl

theorem uniqueKeys_cons_iff {e : InstanceKey × NodeID} {rest : InstanceMap} :
    uniqueKeys (e :: rest) ↔ e.1 ∉ instanceKeys rest ∧ uniqueKeys rest := by
  rw [uniqueKeys, instanceKeys_cons, List.nodup_cons]
  exact Iff.rfl

theorem any_key_eq_false_iff {m : InstanceMap} {k : InstanceKey} :
    m.any (fun x => x.1 = k) = false ↔ k ∉ instanceKeys m := by
  constructor
  · intro h hk
    obtain ⟨e, hem, he⟩ := List.mem_map.mp hk
    have h2 := List.any_eq_false.mp h e hem
    exact h2 (by simpa using he)
  · intro h
    refine List.any_eq_false.mpr (fun e hem h2 => ?_)
    exact h (List.mem_map.mpr ⟨e, hem, by simpa using h2⟩)

theorem insertInstance_cons_ne {e : InstanceKey × NodeID} {k : InstanceKey}
    (hne : ¬ e.1 = k) (rest : InstanceMap) (v : NodeID) :
    insertInstance (e :: rest) k v = e :: insertInstance rest k v := by
  by_cases h : rest.any (fun x => x.1 = k) = true
  · have h2 : (e :: rest).any (fun x => x.1 = k) = true := by simp [List.any_cons, h]
    rw [insertInstance_of_any_eq_true v h, insertInstance_of_any_eq_true v h2, List.map_cons]
    simp [hne]
  · have h' := Bool.of_not_eq_true h
    have h2 : (e :: rest).any (fun x => x.1 = k) = false := by simp [List.any_cons, h', hne]
    rw [insertInstance_of_any_eq_false v h', insertInstance_of_any_eq_false v h2]
    simp

theorem map_replace_eq_self {rest : InstanceMap} {k : InstanceKey}
    (hrest : rest.any (fun x => x.1 = k) = false) (v : NodeID) :
    rest.map (fun x => if x.1 = k then (k, v) else x) = rest := by
  have hall := List.any_eq_false.mp hrest
  have h2 : rest.map (fun x => if x.1 = k then (k, v) else x) = rest.map id := by
    refine List.map_congr_left (fun x hx => ?_)
    have hxk : ¬ x.1 = k := by simpa using hall x hx
    simp [hxk]
  rw [h2, List.map_id]

theorem insertInstance_cons_eq {e : InstanceKey × NodeID} {k : InstanceKey}
    (heq : e.1 = k) {rest : InstanceMap}
    (hrest : rest.any (fun x => x.1 = k) = false) (v : NodeID) :
    insertInstance (e :: rest) k v = (k, v) :: rest := by
  have h2 : (e :: rest).any (fun x => x.1 = k) = true := by simp [List.any_cons, heq]
  rw [insertInstance_of_any_eq_true v h2, List.map_cons, map_replace_eq_self hrest v]
  simp [heq]

theorem insertInstance_overwrite (m : InstanceMap) (k : InstanceKey) (v₁ v₂ : NodeID) :
    insertInstance (insertInstance m k v₁) k v₂ = insertInstance m k v₂ := by
  by_cases h : m.any (fun e => e.1 = k) = true
  · rw [insertInstance_of_any_eq_true v₁ h, insertInstance_of_any_eq_true v₂ h]
    obtain ⟨e, hem, hek⟩ := List.any_eq_true.mp h
    have hek' : e.1 = k := of_decide_eq_true hek
    have h2 : (m.map (fun e => if e.1 = k then (k, v₁) else e)).any (fun e => e.1 = k) = true := by
      refine List.any_eq_true.mpr ⟨(k, v₁), List.mem_map.mpr ⟨e, hem, by simp [hek']⟩, by simp⟩
    rw [insertInstance_of_any_eq_true v₂ h2, List.map_map]
    refine List.map_congr_left (fun x _ => ?_)
    by_cases hx : x.1 = k <;> simp [hx]
  · have h' : m.any (fun e => e.1 = k) = false := Bool.of_not_eq_true h
    rw [insertInstance_of_any_eq_false v₁ h']
    have h2 : (m ++ [(k, v₁)]).any (fun e => e.1 = k) = true := by
      simp [List.any_append]
    rw [insertInstance_of_any_eq_true v₂ h2, List.map_append,
        insertInstance_of_any_eq_false v₂ h', map_replace_eq_self h' v₂]
    simp

theorem countKey_eq_zero {m : InstanceMap} {k : InstanceKey}
    (h : m.any (fun x => x.1 = k) = false) : countKey m k = 0 := by
  have hall := List.any_eq_false.mp h
  rw [countKey, List.length_eq_zero, List.filter_eq_nil_iff]
  exact hall

theorem countKey_insertInstance (m : InstanceMap) (k : InstanceKey) (v : NodeID)
    (h : uniqueKeys m) : countKey (insertInstance m k v) k = 1 := by
  induction m with
  | nil => simp [insertInstance, countKey]
  | cons e rest ih =>
    obtain ⟨h1, h2⟩ := uniqueKeys_cons_iff.mp h
    by_cases hek : e.1 = k
    · have hrest : rest.any (fun x => x.1 = k) = false :=
        any_key_eq_false_iff.mpr (hek ▸ h1)
      rw [insertInstance_cons_eq hek hrest v]
      have hz' : countKey rest k = 0 := countKey_eq_zero hrest
      simp only [countKey, List.filter_cons, decide_eq_true_eq] at hz' ⊢
      simp [hz']
    · rw [insertInstance_cons_ne hek rest v]
      have h3 := ih h2
      simp only [countKey, List.filter_cons, decide_eq_true_eq] at h3 ⊢
      simp [hek, h3]

theorem instanceKeys_insertInstance_subset (m : InstanceMap) (k : InstanceKey) (v : NodeID) :
    ∀ x ∈ instanceKeys (insertInstance m k v), x = k ∨ x ∈ instanceKeys m := by
  intro x hx
  by_cases h : m.any (fun e => e.1 = k) = true
  · rw [insertInstance_of_any_eq_true v h] at hx
    simp only [instanceKeys, List.map_map, List.mem_map, Function.comp] at hx
    obtain ⟨e, hem, he⟩ := hx
    by_cases hek : e.1 = k
    · left
      rw [← he]
      simp [hek]
    · right
      rw [← he]
      simp only [hek, if_false]
      exact List.mem_map.mpr ⟨e, hem, rfl⟩
  · rw [insertInstance_of_any_eq_false v (Bool.of_not_eq_true h)] at hx
    simp only [instanceKeys, List.map_append, List.mem_append] at hx
    rcases hx with hx | hx
    · right
      exact hx
    · left
      simpa using hx

theorem uniqueKeys_insertInstance (m : InstanceMap) (k : InstanceKey) (v : NodeID)
    (h : uniqueKeys m) : uniqueKeys (insertInstance m k v) := by
  induction m with
  | nil => simp [insertInstance, uniqueKeys, instanceKeys]
  | cons e rest ih =>
    obtain ⟨h1, h2⟩ := uniqueKeys_cons_iff.mp h
    by_cases hek : e.1 = k
    · have hrest : rest.any (fun x => x.1 = k) = false :=
        any_key_eq_false_iff.mpr (hek ▸ h1)
      rw [insertInstance_cons_eq hek hrest v]
      exact uniqueKeys_cons_iff.mpr ⟨hek ▸ h1, h2⟩
    · rw [insertInstance_cons_ne hek rest v]
      refine uniqueKeys_cons_iff.mpr ⟨?_, ih h2⟩
      intro hmem
      rcases instanceKeys_insertInstance_subset rest k v _ hmem with h3 | h3
      · exact hek h3
      · exact h1 h3

/-! ## Helper lemmas about the loop detector's captures -/

theorem revertsCaptureStep_keys (m : InstanceMap) (item : Identifier) :
    ∀ x ∈ instanceKeys (revertsCaptureStep m item),
      x ∈ instanceKeys m ∨
        (x = item.key ∧
          ((closestAncestorOfType item.ancestorTypes .ForStatement).isSome = true ∨
           (closestAncestorOfType item.ancestorTypes .WhileStatement).isSome = true)) := by
  intro x hx
  unfold revertsCaptureStep at hx
  by_cases hf : (closestAncestorOfType item.ancestorTypes .ForStatement).isSome = true
  · by_cases hw : (closestAncestorOfType item.ancestorTypes .WhileStatement).isSome = true
    · simp only [hf, hw, if_true] at hx
      rcases instanceKeys_insertInstance_subset _ _ _ x hx with h | h
      · exact Or.inr ⟨h, Or.inl hf⟩
      · rcases instanceKeys_insertInstance_subset _ _ _ x h with h2 | h2
        · exact Or.inr ⟨h2, Or.inl hf⟩
        · exact Or.inl h2
    · simp only [hf, hw, if_true, Bool.false_eq_true, if_false] at hx
      rcases instanceKeys_insertInstance_subset _ _ _ x hx with h | h
      · exact Or.inr ⟨h, Or.inl hf⟩
      · exact Or.inl h
  · by_cases hw : (closestAncestorOfType item.ancestorTypes .WhileStatement).isSome = true
    · simp only [hf, hw, if_true, if_false] at hx
      rcases instanceKeys_insertInstance_subset _ _ _ x hx with h | h
      · exact Or.inr ⟨h, Or.inr hw⟩
      · exact Or.inl h
    · simp only [hf, hw, if_false] at hx
      exact Or.inl hx

theorem revertsFoldl_keys (l : List Identifier) :
    ∀ (m0 : InstanceMap), ∀ x ∈ instanceKeys (l.foldl revertsCaptureStep m0),
      x ∈ instanceKeys m0 ∨
        ∃ id, id ∈ l ∧ id.key = x ∧
          ((closestAncestorOfType id.ancestorTypes .ForStatement).isSome = true ∨
           (closestAncestorOfType id.ancestorTypes .WhileStatement).isSome = true) := by
  induction l with
  | nil =>
    intro m0 x hx
    exact Or.inl hx
  | cons item rest ih =>
    intro m0 x hx
    rw [List.foldl_cons] at hx
    rcases ih (revertsCaptureStep m0 item) x hx with h | ⟨id, hid, hkey, hanc⟩
    · rcases revertsCaptureStep_keys m0 item x h with h2 | ⟨hxk, hanc⟩
      · exact Or.inl h2
      · exact Or.inr ⟨item, List.mem_cons_self item rest, hxk.symm, hanc⟩
    · exact Or.inr ⟨id, List.mem_cons_of_mem item hid, hkey, hanc⟩

theorem revertsDetect_capture_sound (identifiers : List Identifier) :
    ∀ x ∈ instanceKeys (revertsAndRequiresInLoopsDetect identifiers).2,
      ∃ id, id ∈ identifiers ∧ id.key = x ∧
        (id.name = "revert" ∨ id.name = "require") ∧
        ((closestAncestorOfType id.ancestorTypes .ForStatement).isSome = true ∨
         (closestAncestorOfType id.ancestorTypes .WhileStatement).isSome = true) := by
  intro x hx
  have h := revertsFoldl_keys
    (identifiers.filter (fun id => id.name = "revert" || id.name = "require")) [] x hx
  rcases h with h | ⟨id, hid, hkey, hanc⟩
  · simp [instanceKeys] at h
  · obtain ⟨hmem, hname⟩ := List.mem_filter.mp hid
    refine ⟨id, hmem, hkey, ?_, hanc⟩
    rcases Bool.or_eq_true _ _ |>.mp hname with h2 | h2
    · exact Or.inl (of_decide_eq_true h2)
    · exact Or.inr (of_decide_eq_true h2)

/-! ## Helper lemmas about the blame-coverage harness -/

theorem foldl_append_bind {α β : Type} (g : α → List β) (l : List α) :
    ∀ init : List β, l.foldl (fun acc x => acc ++ g x) init = init ++ l.flatMap g := by
  induction l with
  | nil =>
    intro init
    simp
  | cons x l ih =>
    intro init
    simp [List.foldl_cons, ih]

theorem desiredInstances_eq_bind (filePath : String) (lines : List String) (selfName : String) :
    desiredInstances filePath lines selfName
      = lines.enum.flatMap (fun p =>
          match blameMarkerNames p.2 with
          | none => []
          | some names =>
            (names.filter (fun n => n = selfName)).map (fun _ => (filePath, p.1 + 2))) := by
  unfold desiredInstances
  have hstep : (fun (acc : List (String × Nat)) (p : Nat × String) =>
      match blameMarkerNames p.2 with
      | none => acc
      | some names =>
        acc ++ (names.filter (fun n => n = selfName)).map (fun _ => (filePath, p.1 + 2)))
      = fun acc p => acc ++ (match blameMarkerNames p.2 with
          | none => []
          | some names =>
            (names.filter (fun n => n = selfName)).map (fun _ => (filePath, p.1 + 2))) := by
    funext acc p
    cases blameMarkerNames p.2 <;> simp
  rw [hstep, foldl_append_bind]
  simp

theorem mem_desiredInstances {filePath selfName : String} {lines : List String}
    {d : String × Nat} :
    d ∈ desiredInstances filePath lines selfName ↔
      ∃ ln line names, lines[ln]? = some line ∧ blameMarkerNames line = some names ∧
        selfName ∈ names ∧ d = (filePath, ln + 2) := by
  rw [desiredInstances_eq_bind, List.mem_flatMap]
  constructor
  · rintro ⟨⟨i, x⟩, hp, hd⟩
    have hget : lines[i]? = some x := List.mk_mem_enum_iff_getElem?.mp hp
    cases hb : blameMarkerNames x with
    | none =>
      rw [hb] at hd
      simp at hd
    | some names =>
      rw [hb] at hd
      obtain ⟨n, hn, hdn⟩ := List.mem_map.mp hd
      obtain ⟨hnmem, hns⟩ := List.mem_filter.mp hn
      refine ⟨i, x, names, hget, hb, ?_, hdn.symm⟩
      have hn2 : n = selfName := by simpa using hns
      exact hn2 ▸ hnmem
  · rintro ⟨ln, line, names, hget, hblame, hmem, hd⟩
    refine ⟨(ln, line), List.mk_mem_enum_iff_getElem?.mpr hget, ?_⟩
    rw [hblame]
    refine List.mem_map.mpr ⟨selfName, List.mem_filter.mpr ⟨hmem, by simp⟩, hd.symm⟩

theorem coversDesired_eq_true_iff {instances : InstanceMap} {d : String × Nat} :
    coversDesired instances d = true ↔
      ∃ e ∈ instances, stringEndsWith d.1 e.1.1 = true ∧ d.2 = e.1.2.1 := by
  unfold coversDesired
  rw [List.any_eq_true]
  constructor
  · rintro ⟨e, he, hcond⟩
    rw [Bool.and_eq_true] at hcond
    exact ⟨e, he, hcond.1, by simpa using hcond.2⟩
  · rintro ⟨e, he, h1, h2⟩
    exact ⟨e, he, by rw [Bool.and_eq_true]; exact ⟨h1, by simpa using h2⟩⟩

/-! ## Helper lemmas about the registry -/

theorem lookup_eq_none_of_unknown {l : List (NodeID × NodeID)} {i : NodeID}
    (h : (l.map Prod.fst).contains i = false) : l.lookup i = none := by
  induction l with
  | nil => rfl
  | cons e rest ih =>
    obtain ⟨a, b⟩ := e
    simp only [List.map_cons, List.contains_cons, Bool.or_eq_false_iff] at h
    have h1 : (i == a) = false := h.1
    simp only [List.lookup, h1]
    exact ih h.2

theorem get_ancestors_eq_nil_of_unknown {r : Registry} {i : NodeID}
    (h : r.knownIdentity i = false) : r.get_ancestors i = [] := by
  have hp : r.parent_of i = none := lookup_eq_none_of_unknown h
  unfold Registry.get_ancestors
  cases hl : r.parentIndex.length with
  | zero => simp [getAncestorsAux]
  | succ n => simp [getAncestorsAux, hp]

/-- A successful lookup's key is among the table's keys. -/
theorem mem_keys_of_lookup_eq_some {l : List (String × IssueDetectorNamePool)} {a : String}
    {b : IssueDetectorNamePool} (h : l.lookup a = some b) : a ∈ l.map Prod.fst := by
  induction l with
  | nil => simp [List.lookup] at h
  | cons e rest ih =>
    obtain ⟨x, y⟩ := e
    by_cases hax : (a == x) = true
    · simp [List.mem_map]
      exact Or.inl (eq_of_beq hax)
    · have hax' : (a == x) = false := Bool.of_not_eq_true hax
      simp only [List.lookup, hax'] at h
      simp only [List.map_cons, List.mem_cons]
      exact Or.inr (ih h)

/-! ## The claims -/

/-- C1: capture is idempotent and instance keys are deduplicated: re-capturing
the same key overwrites the earlier entry; a capture into a mapping with
unique keys leaves exactly one entry for that key and preserves key
uniqueness; and in the loop detector an identifier with both a for-statement
and a while-statement ancestor is still recorded as exactly one instance. -/
theorem capture_idempotent_and_deduplicated (m : InstanceMap) (k : InstanceKey)
    (v₁ v₂ : NodeID) (h : uniqueKeys m) (key : InstanceKey) (nodeId : NodeID) :
    insertInstance (insertInstance m k v₁) k v₂ = insertInstance m k v₂
    ∧ countKey (insertInstance m k v₁) k = 1
    ∧ uniqueKeys (insertInstance m k v₁)
    ∧ revertsAndRequiresInLoopsDetect
        [⟨"require", [.ForStatement, .WhileStatement], key, nodeId⟩]
        = (true, [(key, nodeId)]) :=
  ⟨insertInstance_overwrite m k v₁ v₂, countKey_insertInstance m k v₁ h,
   uniqueKeys_insertInstance m k v₁ h, by
    simp [revertsAndRequiresInLoopsDetect, revertsCaptureStep, closestAncestorOfType,
          insertInstance, List.find?]⟩

/-- Witness for C1 at a concrete mapping, key and identifier. -/
theorem capture_idempotent_and_deduplicated_witness :
    insertInstance (insertInstance [(("a.sol", 1, "0:4:0"), 1)] ("b.sol", 2, "5:2:0") 2)
        ("b.sol", 2, "5:2:0") 3
      = insertInstance [(("a.sol", 1, "0:4:0"), 1)] ("b.sol", 2, "5:2:0") 3
    ∧ countKey (insertInstance [(("a.sol", 1, "0:4:0"), 1)] ("b.sol", 2, "5:2:0") 2)
        ("b.sol", 2, "5:2:0") = 1
    ∧ uniqueKeys (insertInstance [(("a.sol", 1, "0:4:0"), 1)] ("b.sol", 2, "5:2:0") 2)
    ∧ revertsAndRequiresInLoopsDetect
        [⟨"require", [.ForStatement, .WhileStatement], ("c.sol", 3, "9:7:0"), 4⟩]
        = (true, [(("c.sol", 3, "9:7:0"), 4)]) :=
  capture_idempotent_and_deduplicated [(("a.sol", 1, "0:4:0"), 1)] ("b.sol", 2, "5:2:0")
    2 3 (by simp [uniqueKeys, instanceKeys]) ("c.sol", 3, "9:7:0") 4

/-- C2: on a workspace whose single pragma directive is
`pragma solidity ^0.8.20;`, the PUSH0 detector returns `Ok(true)` with
exactly one instance keyed at the pragma's location, and its severity is
Low. -/
theorem pushZero_detects_caret_0_8_20 (key : InstanceKey) (nodeId : NodeID) :
    pushZeroOpcodeDetect [⟨["solidity", "^", "0.8.20"], key, nodeId⟩]
      = some (true, [(key, nodeId)])
    ∧ pushZeroOpcodeSeverity = IssueSeverity.Low :=
  ⟨rfl, rfl⟩

/-- C3: on a workspace whose single pragma directive is the exact requirement
`pragma solidity 0.8.19;`, the PUSH0 detector returns `Ok(false)` with no
instances; the exact-version branch accepts only major 0, minor 8,
patch 20. -/
theorem pushZero_exact_0_8_19_not_detected (key : InstanceKey) (nodeId : NodeID) :
    pushZeroOpcodeDetect [⟨["solidity", "0.8.19"], key, nodeId⟩] = some (false, [])
    ∧ (∀ c : Comparator, c.op = SemverOp.Exact →
        (version_req_allows_above_0_8_19 ⟨[c]⟩ = true ↔
          c.major = 0 ∧ c.minor = some 8 ∧ c.patch = some 20)) := by
  refine ⟨rfl, fun c hop => ?_⟩
  obtain ⟨op, major, minor, patch⟩ := c
  subst hop
  simp [version_req_allows_above_0_8_19, and_assoc]

/-- C4: on a function with two require identifiers inside for-loop bodies and
one require identifier outside any loop, the loop detector reports found and
exactly the two in-loop instances; and in general every captured key belongs
to a revert/require identifier with a for-statement or while-statement
ancestor. -/
theorem revertsInLoops_two_in_for_one_outside (a1 a2 a3 : List NodeType)
    (k1 k2 k3 : InstanceKey) (n1 n2 n3 : NodeID)
    (hf1 : (closestAncestorOfType a1 .ForStatement).isSome = true)
    (hf2 : (closestAncestorOfType a2 .ForStatement).isSome = true)
    (hf3 : (closestAncestorOfType a3 .ForStatement).isSome = false)
    (hw3 : (closestAncestorOfType a3 .WhileStatement).isSome = false)
    (hk12 : k1 ≠ k2) (hk13 : k1 ≠ k3) (hk23 : k2 ≠ k3) :
    revertsAndRequiresInLoopsDetect
      [⟨"require", a1, k1, n1⟩, ⟨"require", a2, k2, n2⟩, ⟨"require", a3, k3, n3⟩]
      = (true, [(k1, n1), (k2, n2)])
    ∧ k3 ∉ instanceKeys [(k1, n1), (k2, n2)]
    ∧ (∀ identifiers : List Identifier,
        ∀ x ∈ instanceKeys (revertsAndRequiresInLoopsDetect identifiers).2,
        ∃ id, id ∈ identifiers ∧ id.key = x ∧
          (id.name = "revert" ∨ id.name = "require") ∧
          ((closestAncestorOfType id.ancestorTypes .ForStatement).isSome = true ∨
           (closestAncestorOfType id.ancestorTypes .WhileStatement).isSome = true)) := by
  refine ⟨?_, ?_, revertsDetect_capture_sound⟩
  · have s1 : revertsCaptureStep [] ⟨"require", a1, k1, n1⟩ = [(k1, n1)] := by
      unfold revertsCaptureStep
      simp only [hf1, if_true]
      by_cases hw1 : (closestAncestorOfType a1 .WhileStatement).isSome = true
      · simp [hw1, insertInstance]
      · simp [Bool.of_not_eq_true hw1, insertInstance]
    have s2 : revertsCaptureStep [(k1, n1)] ⟨"require", a2, k2, n2⟩
        = [(k1, n1), (k2, n2)] := by
      unfold revertsCaptureStep
      simp only [hf2, if_true]
      by_cases hw2 : (closestAncestorOfType a2 .WhileStatement).isSome = true
      · simp [hw2, insertInstance, hk12]
      · simp [Bool.of_not_eq_true hw2, insertInstance, hk12]
    have s3 : revertsCaptureStep [(k1, n1), (k2, n2)] ⟨"require", a3, k3, n3⟩
        = [(k1, n1), (k2, n2)] := by
      unfold revertsCaptureStep
      simp [hf3, hw3]
    have hfil : List.filter (fun id => id.name = "revert" || id.name = "require")
        [(⟨"require", a1, k1, n1⟩ : Identifier), ⟨"require", a2, k2, n2⟩,
         ⟨"require", a3, k3, n3⟩]
        = [⟨"require", a1, k1, n1⟩, ⟨"require", a2, k2, n2⟩, ⟨"require", a3, k3, n3⟩] := by
      simp [List.filter_cons]
    simp only [revertsAndRequiresInLoopsDetect, hfil, List.foldl_cons, List.foldl_nil,
               s1, s2, s3]
    rfl
  · intro hmem
    rcases List.mem_cons.mp hmem with h | h
    · exact hk13 h.symm
    · rcases List.mem_cons.mp h with h2 | h2
      · exact hk23 h2.symm
      · simp at h2

/-- Witness for C4 at concrete ancestor chains, keys and identities. -/
theorem revertsInLoops_two_in_for_one_outside_witness :
    revertsAndRequiresInLoopsDetect
      [⟨"require", [.ForStatement], ("a.sol", 1, "10:5:0"), 11⟩,
       ⟨"require", [.ForStatement], ("a.sol", 2, "20:5:0"), 12⟩,
       ⟨"require", [], ("a.sol", 3, "30:5:0"), 13⟩]
      = (true, [(("a.sol", 1, "10:5:0"), 11), (("a.sol", 2, "20:5:0"), 12)])
    ∧ ("a.sol", 3, "30:5:0")
        ∉ instanceKeys [(("a.sol", 1, "10:5:0"), 11), (("a.sol", 2, "20:5:0"), 12)]
    ∧ (∀ identifiers : List Identifier,
        ∀ x ∈ instanceKeys (revertsAndRequiresInLoopsDetect identifiers).2,
        ∃ id, id ∈ identifiers ∧ id.key = x ∧
          (id.name = "revert" ∨ id.name = "require") ∧
          ((closestAncestorOfType id.ancestorTypes .ForStatement).isSome = true ∨
           (closestAncestorOfType id.ancestorTypes .WhileStatement).isSome = true)) :=
  revertsInLoops_two_in_for_one_outside [.ForStatement] [.ForStatement] []
    ("a.sol", 1, "10:5:0") ("a.sol", 2, "20:5:0") ("a.sol", 3, "30:5:0") 11 12 13
    (by decide) (by decide) (by decide) (by decide) (by decide) (by decide) (by decide)

/-- C5: the zero-address detector captures `stateAddr = param;` when `param`
is never compared via `==`/`!=` in the function; it does not capture the same
assignment when the function contains `require(param != address(0))`; and
with a multi-identifier right-hand side a single unchecked parameter-sourced
identifier suffices to trigger the capture. -/
theorem zeroAddressCheck_capture_scenarios (svId pId qId : NodeID)
    (k1 k2 k3 : InstanceKey) (n1 n2 n3 : NodeID) (hpq : pId ≠ qId) :
    zeroAddressCheckDetect
      ⟨[⟨svId, false, some .Mutable, true, some "address"⟩],
       [⟨[⟨pId⟩], [], [⟨.identifier svId, .identifier pId, k1, n1⟩]⟩]⟩
      = (true, [(k1, n1)])
    ∧ zeroAddressCheckDetect
        ⟨[⟨svId, false, some .Mutable, true, some "address"⟩],
         [⟨[⟨pId⟩], [⟨"!=", .identifier pId, .otherExpr []⟩],
           [⟨.identifier svId, .identifier pId, k2, n2⟩]⟩]⟩
        = (false, [])
    ∧ zeroAddressCheckDetect
        ⟨[⟨svId, false, some .Mutable, true, some "address"⟩],
         [⟨[⟨pId⟩, ⟨qId⟩], [⟨"==", .identifier qId, .otherExpr []⟩],
           [⟨.identifier svId, .otherExpr [.identifier qId, .identifier pId], k3, n3⟩]⟩]⟩
        = (true, [(k3, n3)]) := by
  have hc : containsSubstring "address" "address" = true := by decide
  refine ⟨?_, ?_, ?_⟩
  · simp [zeroAddressCheckDetect, mutableAddressStateVariableIds,
          isMutableAddressStateVariable, binaryChecksIds, lhsIsMutableAddressStateVar,
          captureAssignmentStep, rhsTriggers, insertInstance, List.filter_cons, hc]
  · simp [zeroAddressCheckDetect, mutableAddressStateVariableIds,
          isMutableAddressStateVariable, binaryChecksIds, addSideCheckIds, insertCheckId,
          extractIdentifiers, extractIdentifiersList, lhsIsMutableAddressStateVar,
          captureAssignmentStep, rhsTriggers, insertInstance, List.filter_cons, hc]
  · simp [zeroAddressCheckDetect, mutableAddressStateVariableIds,
          isMutableAddressStateVariable, binaryChecksIds, addSideCheckIds, insertCheckId,
          extractIdentifiers, extractIdentifiersList, lhsIsMutableAddressStateVar,
          captureAssignmentStep, rhsTriggers, insertInstance, List.filter_cons, hc,
          hpq, Ne.symm hpq]

/-- Witness for C5 at concrete declaration ids, keys and identities. -/
theorem zeroAddressCheck_capture_scenarios_witness :
    zeroAddressCheckDetect
      ⟨[⟨1, false, some .Mutable, true, some "address"⟩],
       [⟨[⟨2⟩], [], [⟨.identifier 1, .identifier 2, ("z.sol", 7, "100:20:0"), 31⟩]⟩]⟩
      = (true, [(("z.sol", 7, "100:20:0"), 31)])
    ∧ zeroAddressCheckDetect
        ⟨[⟨1, false, some .Mutable, true, some "address"⟩],
         [⟨[⟨2⟩], [⟨"!=", .identifier 2, .otherExpr []⟩],
           [⟨.identifier 1, .identifier 2, ("z.sol", 8, "120:20:0"), 32⟩]⟩]⟩
        = (false, [])
    ∧ zeroAddressCheckDetect
        ⟨[⟨1, false, some .Mutable, true, some "address"⟩],
         [⟨[⟨2⟩, ⟨3⟩], [⟨"==", .identifier 3, .otherExpr []⟩],
           [⟨.identifier 1, .otherExpr [.identifier 3, .identifier 2],
             ("z.sol", 9, "140:20:0"), 33⟩]⟩]⟩
        = (true, [(("z.sol", 9, "140:20:0"), 33)]) :=
  zeroAddressCheck_capture_scenarios 1 2 3 ("z.sol", 7, "100:20:0") ("z.sol", 8, "120:20:0")
    ("z.sol", 9, "140:20:0") 31 32 33 (by decide)

/-- C6: the blame-coverage check returns true exactly when, for every line of
the fixture carrying a closed `@nyth:blame(...)` marker that names this
detector, the pair (fixture path, line after the marker in 1-based numbering)
matches some instance key — the file compared by suffix, the line compared
exactly. -/
theorem verifyBlameCoverage_true_iff (instances : InstanceMap) (filePath selfName : String)
    (lines : List String) :
    verifyBlameCoverage instances filePath lines selfName = true ↔
      ∀ ln line names, lines[ln]? = some line → blameMarkerNames line = some names →
        selfName ∈ names →
        ∃ e ∈ instances, stringEndsWith filePath e.1.1 = true ∧ ln + 2 = e.1.2.1 := by
  have hshow : verifyBlameCoverage instances filePath lines selfName =
      (((desiredInstances filePath lines selfName).filter
        (fun d => !(coversDesired instances d))).length == 0) := rfl
  rw [hshow]
  constructor
  · intro h ln line names hget hblame hmem
    have hnil : (desiredInstances filePath lines selfName).filter
        (fun d => !(coversDesired instances d)) = [] := by
      rw [← List.length_eq_zero]
      simpa using h
    have hd : (filePath, ln + 2) ∈ desiredInstances filePath lines selfName :=
      mem_desiredInstances.mpr ⟨ln, line, names, hget, hblame, hmem, rfl⟩
    have hcov : coversDesired instances (filePath, ln + 2) = true := by
      by_contra hcx
      have hmemf : (filePath, ln + 2) ∈ (desiredInstances filePath lines selfName).filter
          (fun d => !(coversDesired instances d)) :=
        List.mem_filter.mpr ⟨hd, by simp [Bool.of_not_eq_true hcx]⟩
      rw [hnil] at hmemf
      simp at hmemf
    obtain ⟨e, he, h1, h2⟩ := coversDesired_eq_true_iff.mp hcov
    exact ⟨e, he, h1, h2⟩
  · intro h
    have hall : ∀ d ∈ desiredInstances filePath lines selfName,
        coversDesired instances d = true := by
      intro d hd
      obtain ⟨ln, line, names, hget, hblame, hmem, hdeq⟩ := mem_desiredInstances.mp hd
      obtain ⟨e, he, h1, h2⟩ := h ln line names hget hblame hmem
      subst hdeq
      exact coversDesired_eq_true_iff.mpr ⟨e, he, h1, h2⟩
    have hnil : (desiredInstances filePath lines selfName).filter
        (fun d => !(coversDesired instances d)) = [] :=
      List.filter_eq_nil_iff.mpr (fun d hd => by simp [hall d hd])
    rw [hnil]
    rfl

/-- C7: relationship queries never fail on a missing identity: when the
node's identity cannot be determined (`accept_id` fails or yields no id),
`ancestors` returns `None`; and for an identity the registry does not know,
the result is the empty sequence, not an error. -/
theorem ancestors_missing_identity_never_fails :
    (∀ r : Registry, ancestors r (Except.error ()) = none)
    ∧ (∀ r : Registry, ancestors r (Except.ok none) = none)
    ∧ (∀ (r : Registry) (i : NodeID), r.knownIdentity i = false →
        ancestors r (Except.ok (some i)) = some []) :=
  ⟨fun _ => rfl, fun _ => rfl, fun r i h => by
    simp only [ancestors]
    rw [get_ancestors_eq_nil_of_unknown h]⟩

/-- Witness for C7 at a concrete registry and unknown identity. -/
theorem ancestors_missing_identity_never_fails_witness :
    ancestors ⟨[(1, 2), (2, 3)]⟩ (Except.ok (some 99)) = some [] :=
  ancestors_missing_identity_never_fails.2.2 ⟨[(1, 2), (2, 3)]⟩ 99 (by decide)

/-- C8: detector construction by name panics (modelled as `none`) on every
string that is not a recognized kebab-case detector name and on the
placeholder name `undecided`; each of the 18 recognized names constructs the
corresponding detector. -/
theorem detector_lookup_panics_on_bad_name :
    (∀ s : String, s ∉ recognizedDetectorNames → get_issue_detector_by_name s = none)
    ∧ (get_issue_detector_by_name "undecided" = none
    ∧ get_issue_detector_by_name "delegate-call-in-loop"
        = some DetectorKind.DelegateCallInLoopDetector
    ∧ get_issue_detector_by_name "centralization-risk"
        = some DetectorKind.CentralizationRiskDetector
    ∧ get_issue_detector_by_name "solmate-safe-transfer-lib"
        = some DetectorKind.SolmateSafeTransferLibDetector
    ∧ get_issue_detector_by_name "avoid-abi-encode-packed"
        = some DetectorKind.AvoidAbiEncodePackedDetector
    ∧ get_issue_detector_by_name "ecrecover" = some DetectorKind.EcrecoverDetector
    ∧ get_issue_detector_by_name "deprecated-oz-functions"
        = some DetectorKind.DeprecatedOZFunctionsDetector
    ∧ get_issue_detector_by_name "unsafe-erc20-functions"
        = some DetectorKind.UnsafeERC20FunctionsDetector
    ∧ get_issue_detector_by_name "unspecific-solidity-pragma"
        = some DetectorKind.UnspecificSolidityPragmaDetector
    ∧ get_issue_detector_by_name "zero-address-check"
        = some DetectorKind.ZeroAddressCheckDetector
    ∧ get_issue_detector_by_name "useless-public-function"
        = some DetectorKind.UselessPublicFunctionDetector
    ∧ get_issue_detector_by_name "constants-instead-of-literals"
        = some DetectorKind.ConstantsInsteadOfLiteralsDetector
    ∧ get_issue_detector_by_name "unindexed-events"
        = some DetectorKind.UnindexedEventsDetector
    ∧ get_issue_detector_by_name "require-with-string"
        = some DetectorKind.RequireWithStringDetector
    ∧ get_issue_detector_by_name "non-reentrant-before-others"
        = some DetectorKind.NonReentrantBeforeOthersDetector
    ∧ get_issue_detector_by_name "block-timestamp-deadline"
        = some DetectorKind.BlockTimestampDeadlineDetector
    ∧ get_issue_detector_by_name "unsafe-oz-erc721-mint"
        = some DetectorKind.UnsafeERC721MintDetector
    ∧ get_issue_detector_by_name "push-zero-opcode"
        = some DetectorKind.PushZeroOpcodeDetector
    ∧ get_issue_detector_by_name "arbitrary-transfer-from"
        = some DetectorKind.ArbitraryTransferFromDetector) := by
  constructor
  · intro s hs
    unfold get_issue_detector_by_name
    cases hparse : issueDetectorNamePoolFromStr s with
    | none => rfl
    | some pool =>
      have hmem : s ∈ detectorNameTable.map Prod.fst := mem_keys_of_lookup_eq_some hparse
      have hkeys : detectorNameTable.map Prod.fst
          = recognizedDetectorNames ++ ["undecided"] := by decide
      rw [hkeys, List.mem_append] at hmem
      rcases hmem with h | h
      · exact absurd h hs
      · have hsu : s = "undecided" := by simpa using h
        subst hsu
        have h2 : issueDetectorNamePoolFromStr "undecided"
            = some IssueDetectorNamePool.Undecided := by decide
        rw [h2] at hparse
        have hp : pool = IssueDetectorNamePool.Undecided :=
          (Option.some.injEq _ _ ▸ hparse).symm
        subst hp
        rfl
  · exact ⟨rfl, rfl, rfl, rfl, rfl, rfl, rfl, rfl, rfl, rfl, rfl, rfl, rfl, rfl, rfl,
           rfl, rfl, rfl, rfl⟩

/-- Witness for C8 at a concrete unrecognized name. -/
theorem detector_lookup_panics_on_bad_name_witness :
    get_issue_detector_by_name "no-such-detector" = none :=
  detector_lookup_panics_on_bad_name.1 "no-such-detector" (by decide)

/-- C9: the SARIF printer never emits any finding — `create_sarif_results`
returns the empty vector for every report, discarding the per-high-issue
results it builds. -/
theorem create_sarif_results_always_empty (report : Report) :
    create_sarif_results report = [] :=
  rfl

/-- C10: for each of the three embedded detectors, whenever `detect` returns
`Ok(b)`, `b` is true exactly when the detector's instance mapping ended
non-empty. -/
theorem detect_found_iff_instances_nonempty :
    (∀ (pragmas : List PragmaDirective) (b : Bool) (m : InstanceMap),
        pushZeroOpcodeDetect pragmas = some (b, m) → (b = true ↔ m ≠ []))
    ∧ (∀ identifiers : List Identifier,
        (revertsAndRequiresInLoopsDetect identifiers).1 = true
          ↔ (revertsAndRequiresInLoopsDetect identifiers).2 ≠ [])
    ∧ (∀ context : ZeroAddressContext,
        (zeroAddressCheckDetect context).1 = true
          ↔ (zeroAddressCheckDetect context).2 ≠ []) := by
  refine ⟨?_, ?_, ?_⟩
  · intro pragmas b m h
    unfold pushZeroOpcodeDetect at h
    obtain ⟨m', hm', heq⟩ := Option.map_eq_some'.mp h
    have hb : b = !m'.isEmpty := (Prod.mk.injEq _ _ _ _ ▸ heq).1.symm
    have hm : m = m' := (Prod.mk.injEq _ _ _ _ ▸ heq).2.symm
    subst hb
    subst hm
    simp [List.isEmpty_iff]
  · intro identifiers
    have h : (revertsAndRequiresInLoopsDetect identifiers).1
        = !(revertsAndRequiresInLoopsDetect identifiers).2.isEmpty := rfl
    rw [h]
    simp [List.isEmpty_iff]
  · intro context
    have h : (zeroAddressCheckDetect context).1
        = !(zeroAddressCheckDetect context).2.isEmpty := rfl
    rw [h]
    simp [List.isEmpty_iff]

end Aderyn
